import Mathlib

/-!
# Verification of the slim-mcp stream bridge

Shallow embedding of `src/slim_mcp/mcp_client.py`, `src/slim_mcp/mcp_server.py`
and `src/slim_mcp/helpers.py`.

The bridge code is a pair of coroutine pumps (`slim_reader`, `slim_writer`)
moving messages between a SLIM session and a pair of memory streams, an
accept loop (`run_mcp_server`), a session opener (`create_slim_session`) and a
connect helper (`create_local_app`).  Each pump is embedded as a pure function
from the sequence of outcomes delivered by the external transport (message
payloads, raised exceptions identified by their `str(exc)` text, cancellation)
to the trace of actions the pump performs on its stream or session, together
with the way the coroutine exits.  External collaborators (pydantic
deserialization, JSON serialization) are kept abstract as function parameters,
exactly as the bridge treats them.
-/

namespace SlimMcp

/-! ## Substring containment

Python classifies exceptions with `"needle" in str(exc)`: substring
containment.  `matchesHead needle hay` holds when `needle` occurs at the head
of `hay`; `containsSeq` scans every suffix. -/

def matchesHead : List Char → List Char → Bool
  | [], _ => true
  | _ :: _, [] => false
  | a :: as, b :: bs => a == b && matchesHead as bs

def containsSeq (needle : List Char) : List Char → Bool
  | [] => matchesHead needle []
  | h :: t => matchesHead needle (h :: t) || containsSeq needle t

/-- Python `needle in hay` on strings. -/
def strContains (hay needle : String) : Bool :=
  containsSeq needle.toList hay.toList

/-! ## Data model

A `Msg` is a decoded `JSONRPCMessage`; its internal structure is irrelevant to
the bridge, which only decodes, forwards and re-encodes it, so it is a wrapper
around its logical content.  Deserialization (`model_validate_json`) and
serialization (`model_dump_json`) belong to the external `mcp.types` library
and are passed in as functions: a `decode` returning either a message or the
`str` of the raised validation exception, and an `encode` to a JSON string. -/

structure Msg where
  content : String
deriving DecidableEq

/-- One outcome of `await session.get_message_async(timeout=None)`:
a delivered payload (already decoded from bytes), a raised exception with the
given `str(exc)` text, or cancellation of the pump task at this await point. -/
inductive RecvEvent where
  | msg (payload : String)
  | exn (text : String)
  | cancel
deriving DecidableEq

/-- A value forwarded into the inbound (read) stream: a decoded message or an
exception forwarded as an error value. -/
inductive StreamItem where
  | msg (m : Msg)
  | err (text : String)
deriving DecidableEq

/-- An observable action of the inbound pump on `read_stream_writer`. -/
inductive RAction where
  | send (i : StreamItem)
  | close
deriving DecidableEq

/-- How the `slim_reader` coroutine leaves its `while True` loop:
`terminate`: raised `TerminateTaskGroup` (session-closed classification);
`errBreak`: forwarded the exception as an error value, then `break`
(the coroutine then returns normally);
`cancelled`: `CancelledError` delivered at the receive await;
`pending`: the event sequence is exhausted with the pump still blocked in
`get_message_async` — the coroutine has not exited. -/
inductive ReaderExit where
  | terminate
  | errBreak
  | cancelled
  | pending
deriving DecidableEq

/-! ## The inbound pump, `slim_reader`

From `mcp_client.py` lines 91-113 / `mcp_server.py` lines 48-73.  The two
files differ only in the substring used to classify an exception as a clean
session close, so the loop takes the close-mark as a parameter. -/

/-- The `while True` body of `slim_reader`: receive, decode, forward; on any
exception, classify by substring: close-mark present raises
`TerminateTaskGroup`, otherwise the exception is sent into the stream as an
error value and the loop `break`s. -/
def slim_reader_loop (decode : String → Except String Msg) (closeMark : String) :
    List RecvEvent → List StreamItem × ReaderExit
  | [] => ([], .pending)
  | .cancel :: _ => ([], .cancelled)
  | .msg p :: rest =>
    match decode p with
    | .ok m =>
      let r := slim_reader_loop decode closeMark rest
      (.msg m :: r.1, r.2)
    | .error t =>
      if strContains t closeMark then ([], .terminate)
      else ([.err t], .errBreak)
  | .exn t :: _ =>
    if strContains t closeMark then ([], .terminate)
    else ([.err t], .errBreak)

/-- The whole `slim_reader` coroutine: the loop wrapped in
`try ... finally: await read_stream_writer.aclose()` — whenever the coroutine
exits (by raise, break-then-return, or cancellation) the producer side of the
inbound stream is closed. -/
def slim_reader (decode : String → Except String Msg) (closeMark : String)
    (events : List RecvEvent) : List RAction × ReaderExit :=
  let r := slim_reader_loop decode closeMark events
  (r.1.map RAction.send ++ (if r.2 = .pending then [] else [.close]), r.2)

/-- `mcp_client.py` line 106: the client classifies a clean close by
`"session channel closed" in str(exc)`. -/
def client_close_mark : String := "session channel closed"

/-- `mcp_server.py` line 66: the server classifies a clean close by
`"session closed" in str(exc)`. -/
def server_close_mark : String := "session closed"

def client_slim_reader (decode : String → Except String Msg)
    (events : List RecvEvent) : List RAction × ReaderExit :=
  slim_reader decode client_close_mark events

def server_slim_reader (decode : String → Except String Msg)
    (events : List RecvEvent) : List RAction × ReaderExit :=
  slim_reader decode server_close_mark events

/-! ## The outbound pump, `slim_writer`

From `mcp_client.py` lines 115-129 / `mcp_server.py` lines 75-89 (identical).
The pump iterates `async for message in write_stream_reader`, serializes,
publishes, and awaits the publish completion before taking the next message;
an exception in publish or in the awaited completion is logged and re-raised.
Input: the (finite) sequence of messages submitted to the outbound stream,
each paired with the outcome of its send, plus whether the producer closed
the outbound stream after them. -/

/-- Outcome of sending one message: `ok` (publish succeeded and its completion
acknowledged), `pubRaise` (`publish_async` itself raised: nothing published),
`ackRaise` (publish issued but `completion.wait_async()` raised). -/
inductive SendOutcome where
  | ok
  | pubRaise (text : String)
  | ackRaise (text : String)
deriving DecidableEq

/-- An observable action of the outbound pump: a publish of a serialized
payload on the session, the awaited acknowledgment of the previous publish, or
the closing of `write_stream_reader` in the `finally`. -/
inductive WAction where
  | publish (payload : String)
  | ack
  | close
deriving DecidableEq

/-- How the `slim_writer` coroutine exits: `exhausted`: the outbound stream
was closed and drained, so `async for` ended and the coroutine returned
normally; `raised`: a send failed and the exception was re-raised out of the
coroutine; `pending`: the stream is open with no message available — the
coroutine has not exited. -/
inductive WriterExit where
  | exhausted
  | raised (text : String)
  | pending
deriving DecidableEq

def slim_writer_loop (encode : Msg → String) :
    List (Msg × SendOutcome) → Bool → List WAction × WriterExit
  | [], closed => ([], if closed then .exhausted else .pending)
  | (m, .ok) :: rest, closed =>
    let r := slim_writer_loop encode rest closed
    (.publish (encode m) :: .ack :: r.1, r.2)
  | (_, .pubRaise t) :: _, _ => ([], .raised t)
  | (m, .ackRaise t) :: _, _ => ([.publish (encode m)], .raised t)

/-- The whole `slim_writer` coroutine: the `async for` loop wrapped in
`try ... finally: await write_stream_reader.aclose()`. -/
def slim_writer (encode : Msg → String) (msgs : List (Msg × SendOutcome))
    (closed : Bool) : List WAction × WriterExit :=
  let r := slim_writer_loop encode msgs closed
  (r.1 ++ (if r.2 = .pending then [] else [.close]), r.2)

/-- The payloads actually published on the session, in order. -/
def publishedPayloads : List WAction → List String
  | [] => []
  | .publish p :: t => p :: publishedPayloads t
  | .ack :: t => publishedPayloads t
  | .close :: t => publishedPayloads t

/-! ## Task-group shutdown discipline

`create_mcp_streams` (`mcp_client.py` lines 131-143 / `mcp_server.py` lines
91-105) runs the two pumps inside an `asyncio.TaskGroup`; after the `yield`
returns it spawns `force_termination`, a task that immediately raises
`TerminateTaskGroup`, and the surrounding `except* TerminateTaskGroup: pass`
swallows that group.  Per the documented `asyncio.TaskGroup` semantics (the
task group is an external collaborator), the remaining tasks in the group are
cancelled exactly when one of its tasks exits by raising an exception other
than a cancellation; a task that returns normally cancels nothing. -/

/-- Whether the reader coroutine exits by raising an exception out of its body
(`terminate` raises `TerminateTaskGroup`; `errBreak` is `break` followed by a
normal return; an individually cancelled task raises `CancelledError`, which
the task group does not treat as a failure; `pending` has not exited). -/
def readerExitRaised : ReaderExit → Bool
  | .terminate => true
  | .errBreak => false
  | .cancelled => false
  | .pending => false

/-- Whether the writer coroutine exits by raising (`raised` re-raises the send
failure; `exhausted` is a normal return; `pending` has not exited). -/
def writerExitRaised : WriterExit → Bool
  | .exhausted => false
  | .raised _ => true
  | .pending => false

/-- `force_termination` consists of `raise TerminateTaskGroup()`: it always
exits by raising. -/
def forceTerminationRaised : Bool := true

/-- `asyncio.TaskGroup` discipline: the siblings of an exited task are
cancelled exactly when that task exited by raising a (non-cancellation)
exception. -/
def taskGroupCancelsSiblings (exitRaised : Bool) : Bool := exitRaised

/-! ## The accept loop, `run_mcp_server`

From `mcp_server.py` lines 150-179: `while True` around
`listen_for_session_async`; on success a `handle_session` task is spawned
whose whole body is wrapped in `try ... except Exception: logger.error(...)`;
an exception from the accept itself is caught by the loop's own
`except Exception`, logged, and the loop continues.  Only an exception that is
not an `Exception` — external cancellation — escapes the loop. -/

/-- Outcome of one spawned per-session handler task (`create_mcp_streams` +
`mcp_app.run`): it either completes or raises with the given text. -/
inductive HandlerOutcome where
  | completed
  | raised (text : String)
deriving DecidableEq

/-- One iteration's input to the accept loop: a session accepted (whose
handler task then has the given outcome), an exception from
`listen_for_session_async`, or external cancellation of the loop task. -/
inductive AcceptEvent where
  | accepted (h : HandlerOutcome)
  | acceptError (text : String)
  | cancelled
deriving DecidableEq

/-- `handle_session` (`mcp_server.py` lines 157-172): the handler body runs
under `try ... except Exception as e: logger.error(...)`.  Result: the error
text logged at the task boundary (if any), and whether an exception escapes
the task. -/
def handle_session : HandlerOutcome → Option String × Bool
  | .completed => (none, false)
  | .raised t => (some t, false)

/-- Result of running the accept loop over a finite sequence of events. -/
structure LoopResult where
  spawned : Nat
  acceptErrorsLogged : List String
  handlerErrorsLogged : List String
  listening : Bool
deriving DecidableEq

/-- The `while True` accept loop of `run_mcp_server` over a finite prefix of
events: accepts spawn a `handle_session` task (whose boundary log is
collected), accept failures are logged and the loop continues, and only
external cancellation leaves the loop. -/
def run_mcp_server_loop : List AcceptEvent → LoopResult
  | [] => ⟨0, [], [], true⟩
  | .accepted h :: rest =>
    let hr := handle_session h
    let r := run_mcp_server_loop rest
    ⟨r.spawned + 1, r.acceptErrorsLogged, hr.1.toList ++ r.handlerErrorsLogged,
      r.listening⟩
  | .acceptError t :: rest =>
    let r := run_mcp_server_loop rest
    ⟨r.spawned, t :: r.acceptErrorsLogged, r.handlerErrorsLogged, r.listening⟩
  | .cancelled :: _ => ⟨0, [], [], false⟩

/-! ## The session opener, `create_slim_session`

From `mcp_client.py` lines 24-64: create the session, await the establishment
completion, yield the session; in the `finally`, request deletion via
`delete_session_async` and await its completion. -/

/-- The transport-facing steps of `create_slim_session`, in order. -/
inductive SessionAction where
  | createSession
  | awaitCreateCompletion
  | yieldSession
  | deleteSession
  | awaitDeleteCompletion
deriving DecidableEq

/-- How session establishment goes: both `create_session_async` and the
awaited establishment completion may raise. -/
inductive EstablishOutcome where
  | ok
  | createRaised (text : String)
  | establishRaised (text : String)
deriving DecidableEq

/-- How the body that received the yielded session finishes. -/
inductive BodyOutcome where
  | ret
  | raised (text : String)
deriving DecidableEq

/-- The trace of `create_slim_session` and the exception it propagates to its
caller, if any.  The `try/finally` surrounds only the `yield`, so once the
session is yielded the deletion steps run for both body outcomes. -/
def create_slim_session_run :
    EstablishOutcome → BodyOutcome → List SessionAction × Option String
  | .createRaised t, _ => ([.createSession], some t)
  | .establishRaised t, _ => ([.createSession, .awaitCreateCompletion], some t)
  | .ok, .ret =>
    ([.createSession, .awaitCreateCompletion, .yieldSession, .deleteSession,
      .awaitDeleteCompletion], none)
  | .ok, .raised t =>
    ([.createSession, .awaitCreateCompletion, .yieldSession, .deleteSession,
      .awaitDeleteCompletion], some t)

/-! ## The connect helper, `create_local_app`

From `helpers.py` lines 93-106: when a client config is given,
`service.connect_async` runs under `try ... except Exception as e:` which
re-raises unless `"client already connected" in str(e)`; on an ignored error
`connection_id` keeps its initial `None` and the function proceeds
normally. -/

/-- Outcome of `await service.connect_async(slim_client_config)`. -/
inductive ConnectOutcome where
  | ok (connId : Nat)
  | raisedErr (text : String)
deriving DecidableEq

/-- The connect handling of `create_local_app`: the resulting
`connection_id` on normal return (`Except.ok`), or the re-raised exception
text (`Except.error`). -/
def create_local_app_connect : ConnectOutcome → Except String (Option Nat)
  | .ok i => .ok (some i)
  | .raisedErr t =>
    if strContains t "client already connected" then .ok none
    else .error t

/-! ## Sample codec for concrete evaluations

A concrete stand-in for the external pydantic codec, used only to instantiate
the theorems at concrete inputs: payloads containing `"bad"` fail validation
with a pydantic-style error text, everything else decodes. -/

def decodeSample (s : String) : Except String Msg :=
  if strContains s "bad" then .error ("1 validation error for JSONRPCMessage: " ++ s)
  else .ok ⟨s⟩

def encodeSample (m : Msg) : String := m.content

/-! ## Helper lemmas -/

theorem lastOfAppendSingle {α : Type} (l : List α) (a : α) :
    (l ++ [a]).getLast? = some a := by
  rw [List.getLast?_append_cons]
  rfl

theorem slim_reader_decode_failure (decode : String → Except String Msg)
    (mark p t : String) (rest : List RecvEvent)
    (hdec : decode p = .error t) (hm : strContains t mark = false) :
    slim_reader decode mark (.msg p :: rest)
      = ([.send (.err t), .close], .errBreak) := by
  simp [slim_reader, slim_reader_loop, hdec, hm]

theorem slim_reader_exn (decode : String → Except String Msg)
    (mark t : String) (rest : List RecvEvent) :
    slim_reader decode mark (.exn t :: rest)
      = if strContains t mark then ([.close], .terminate)
        else ([.send (.err t), .close], .errBreak) := by
  by_cases h : strContains t mark = true
  · simp [slim_reader, slim_reader_loop, h]
  · simp at h
    simp [slim_reader, slim_reader_loop, h]

/-! ## C1 -/

/-- Counterexample to C1: a payload that fails validation is followed by a
well-formed payload; the pump forwards the validation error and then exits its
receive loop (`break`), so the subsequent well-formed message is never
forwarded to the inbound stream. -/
theorem decode_failure_counterexample :
    client_slim_reader decodeSample [.msg "bad", .msg "good"]
      = ([.send (.err "1 validation error for JSONRPCMessage: bad"), .close],
         .errBreak)
    ∧ RAction.send (.msg ⟨"good"⟩)
        ∉ (client_slim_reader decodeSample [.msg "bad", .msg "good"]).1 := by
  constructor
  · decide
  · decide

/-- C1 (amended): for every inbound payload whose deserialization fails with
an exception text not classified as session-closed, the pump (client or
server) forwards the exception as an error value into the inbound stream and
then terminates its receive loop (`break`), closing the stream; subsequent
messages are not forwarded. -/
theorem decode_failure_stops_pump (decode : String → Except String Msg)
    (p t : String) (rest : List RecvEvent)
    (hdec : decode p = .error t)
    (hc : strContains t client_close_mark = false)
    (hs : strContains t server_close_mark = false) :
    client_slim_reader decode (.msg p :: rest)
      = ([.send (.err t), .close], .errBreak)
    ∧ server_slim_reader decode (.msg p :: rest)
      = ([.send (.err t), .close], .errBreak) :=
  ⟨slim_reader_decode_failure decode client_close_mark p t rest hdec hc,
   slim_reader_decode_failure decode server_close_mark p t rest hdec hs⟩

/-- Witness for `decode_failure_stops_pump` at a concrete failing payload. -/
theorem decode_failure_stops_pump_witness :
    client_slim_reader decodeSample [.msg "bad", .msg "good"]
      = ([.send (.err "1 validation error for JSONRPCMessage: bad"), .close],
         .errBreak)
    ∧ server_slim_reader decodeSample [.msg "bad", .msg "good"]
      = ([.send (.err "1 validation error for JSONRPCMessage: bad"), .close],
         .errBreak) :=
  decode_failure_stops_pump decodeSample "bad"
    "1 validation error for JSONRPCMessage: bad" [.msg "good"]
    rfl (by decide) (by decide)

/-! ## C9 -/

/-- C9: in `create_local_app`, a connect exception whose text contains
`"client already connected"` is silently ignored (the function proceeds with
`connection_id = None`); every other connect exception is re-raised to the
caller. -/
theorem connect_error_handling (t : String) :
    (strContains t "client already connected" = true →
      create_local_app_connect (.raisedErr t) = .ok none)
    ∧ (strContains t "client already connected" = false →
      create_local_app_connect (.raisedErr t) = .error t) := by
  constructor <;> intro h <;> simp [create_local_app_connect, h]

/-- Witness for `connect_error_handling`: an already-connected error is
swallowed, a connection-refused error is re-raised. -/
theorem connect_error_handling_witness :
    create_local_app_connect (.raisedErr "client already connected: conn-1")
      = .ok none
    ∧ create_local_app_connect (.raisedErr "connection refused")
      = .error "connection refused" :=
  ⟨(connect_error_handling "client already connected: conn-1").1 (by decide),
   (connect_error_handling "connection refused").2 (by decide)⟩

/-! ## C10 -/

/-- C10: the clean-close classification is substring containment on
`str(exc)`, with the client matching `"session channel closed"` and the
server matching `"session closed"`; an exception containing the respective
substring makes the pump raise `TerminateTaskGroup`, and every other
exception is forwarded into the inbound stream as an error value.  The two
match strings give genuinely different behavior: on the text
`"session closed"` the client forwards an error value while the server
terminates cleanly. -/
theorem close_classification (decode : String → Except String Msg)
    (t : String) (rest : List RecvEvent) :
    client_close_mark = "session channel closed"
    ∧ server_close_mark = "session closed"
    ∧ (strContains t client_close_mark = true →
        (client_slim_reader decode (.exn t :: rest)).2 = .terminate)
    ∧ (strContains t client_close_mark = false →
        client_slim_reader decode (.exn t :: rest)
          = ([.send (.err t), .close], .errBreak))
    ∧ (strContains t server_close_mark = true →
        (server_slim_reader decode (.exn t :: rest)).2 = .terminate)
    ∧ (strContains t server_close_mark = false →
        server_slim_reader decode (.exn t :: rest)
          = ([.send (.err t), .close], .errBreak))
    ∧ (client_slim_reader decode [.exn "session closed"]).2
        ≠ (server_slim_reader decode [.exn "session closed"]).2 := by
  refine ⟨rfl, rfl, ?_, ?_, ?_, ?_, ?_⟩
  · intro h
    rw [client_slim_reader, slim_reader_exn, if_pos h]
  · intro h
    rw [client_slim_reader, slim_reader_exn, if_neg (by simp [h])]
  · intro h
    rw [server_slim_reader, slim_reader_exn, if_pos h]
  · intro h
    rw [server_slim_reader, slim_reader_exn, if_neg (by simp [h])]
  · rw [client_slim_reader, server_slim_reader, slim_reader_exn, slim_reader_exn,
      if_neg (by decide), if_pos (by decide)]
    decide

/-- Witness for `close_classification` at concrete exception texts. -/
theorem close_classification_witness :
    (client_slim_reader decodeSample [.exn "session channel closed"]).2
      = .terminate
    ∧ server_slim_reader decodeSample [.exn "transport fault"]
      = ([.send (.err "transport fault"), .close], .errBreak) :=
  ⟨(close_classification decodeSample "session channel closed" []).2.2.1
      (by decide),
   (close_classification decodeSample "transport fault" []).2.2.2.2.2.1
      (by decide)⟩

/-! ## Writer helper lemmas -/

theorem publishedPayloads_append (a b : List WAction) :
    publishedPayloads (a ++ b) = publishedPayloads a ++ publishedPayloads b := by
  induction a with
  | nil => rfl
  | cons x t ih => cases x <;> simp [publishedPayloads, ih]

theorem slim_writer_loop_ok_front (encode : Msg → String) (pre : List Msg)
    (rest : List (Msg × SendOutcome)) (closed : Bool) :
    slim_writer_loop encode (pre.map (fun m => (m, SendOutcome.ok)) ++ rest) closed
      = ((pre.map fun m => [WAction.publish (encode m), WAction.ack]).flatten
          ++ (slim_writer_loop encode rest closed).1,
         (slim_writer_loop encode rest closed).2) := by
  induction pre with
  | nil => simp
  | cons m t ih => simp [slim_writer_loop, ih]

theorem publishedPayloads_ok_run (encode : Msg → String) (pre : List Msg) :
    publishedPayloads
        (pre.map fun m => [WAction.publish (encode m), WAction.ack]).flatten
      = pre.map encode := by
  induction pre with
  | nil => rfl
  | cons m t ih => simp [publishedPayloads_append, publishedPayloads, ih]

/-! ## C3 -/

/-- C3: for every finite sequence of messages submitted to the outbound
stream (each publish succeeding, the stream then closed by its producer), the
outbound pump performs exactly one publish per message, in submission order,
and awaits each publish's completion acknowledgment before taking the next
message: the action trace is exactly the alternation publish, ack, publish,
ack, ..., in submission order, followed by the `finally` close, and the
published payloads are exactly the serializations of the submitted messages
in order. -/
theorem writer_fifo (encode : Msg → String) (msgs : List Msg) :
    slim_writer encode (msgs.map fun m => (m, SendOutcome.ok)) true
      = ((msgs.map fun m => [WAction.publish (encode m), WAction.ack]).flatten
          ++ [WAction.close], .exhausted)
    ∧ publishedPayloads
        (slim_writer encode (msgs.map fun m => (m, SendOutcome.ok)) true).1
      = msgs.map encode
    ∧ (publishedPayloads
        (slim_writer encode (msgs.map fun m => (m, SendOutcome.ok)) true).1).length
      = msgs.length := by
  have h0 : slim_writer_loop encode
      (msgs.map (fun m => (m, SendOutcome.ok)) ++ []) true
      = ((msgs.map fun m => [WAction.publish (encode m), WAction.ack]).flatten,
         .exhausted) := by
    rw [slim_writer_loop_ok_front]
    simp [slim_writer_loop]
  rw [List.append_nil] at h0
  have h1 : slim_writer encode (msgs.map fun m => (m, SendOutcome.ok)) true
      = ((msgs.map fun m => [WAction.publish (encode m), WAction.ack]).flatten
          ++ [WAction.close], .exhausted) := by
    rw [slim_writer, h0]
    simp
  refine ⟨h1, ?_, ?_⟩
  · rw [h1]
    simp [publishedPayloads_append, publishedPayloads, publishedPayloads_ok_run]
  · rw [h1]
    simp [publishedPayloads_append, publishedPayloads, publishedPayloads_ok_run]

/-! ## C4 -/

/-- C4: if the publish of one outbound message (or its awaited completion)
raises, the pump re-raises and stops: the published payloads are exactly the
serializations of the messages before the failure (plus the failing attempt
itself when the publish was issued but its acknowledgment raised), none of the
messages after the failure is ever published, and the coroutine exits by
raising, which is observable to the bridge caller (the task group only
swallows `TerminateTaskGroup`, not the re-raised send failure). -/
theorem send_failure_stops (encode : Msg → String) (pre : List Msg) (m : Msg)
    (t : String) (rest : List (Msg × SendOutcome)) (closed : Bool) :
    ((slim_writer encode
        (pre.map (fun x => (x, SendOutcome.ok)) ++ (m, .pubRaise t) :: rest)
        closed).2 = .raised t
    ∧ publishedPayloads (slim_writer encode
        (pre.map (fun x => (x, SendOutcome.ok)) ++ (m, .pubRaise t) :: rest)
        closed).1 = pre.map encode)
    ∧ ((slim_writer encode
        (pre.map (fun x => (x, SendOutcome.ok)) ++ (m, .ackRaise t) :: rest)
        closed).2 = .raised t
    ∧ publishedPayloads (slim_writer encode
        (pre.map (fun x => (x, SendOutcome.ok)) ++ (m, .ackRaise t) :: rest)
        closed).1 = pre.map encode ++ [encode m])
    ∧ writerExitRaised (WriterExit.raised t) = true := by
  have hp := slim_writer_loop_ok_front encode pre ((m, SendOutcome.pubRaise t) :: rest) closed
  have ha := slim_writer_loop_ok_front encode pre ((m, SendOutcome.ackRaise t) :: rest) closed
  rw [show slim_writer_loop encode ((m, SendOutcome.pubRaise t) :: rest) closed
      = ([], .raised t) from rfl] at hp
  rw [show slim_writer_loop encode ((m, SendOutcome.ackRaise t) :: rest) closed
      = ([WAction.publish (encode m)], .raised t) from rfl] at ha
  refine ⟨⟨?_, ?_⟩, ⟨?_, ?_⟩, rfl⟩ <;>
    simp [slim_writer, hp, ha, publishedPayloads_append, publishedPayloads,
      publishedPayloads_ok_run]

/-! ## C2 -/

/-- Counterexample to C2: the reader receives a transport fault not
classified as session-closed; it forwards the error value and exits its loop
by `break`, returning normally, so the task group cancels nothing — while the
writer, with the outbound stream open and empty, is still pending.  One pump
has terminated, yet nothing in the bridge forces the other's termination
(only a later scope exit would). -/
theorem pump_termination_counterexample :
    (client_slim_reader decodeSample [.exn "transport receive fault"]).2
      = .errBreak
    ∧ taskGroupCancelsSiblings
        (readerExitRaised
          (client_slim_reader decodeSample [.exn "transport receive fault"]).2)
      = false
    ∧ (slim_writer encodeSample [] false).2 = .pending := by
  decide

/-- C2 (amended): a pump that terminates by raising — the reader's clean
session-closed exit (which raises `TerminateTaskGroup`) and the writer's
re-raised send failure — causes the task group to cancel the sibling pump,
and scope exit always forces both pumps to stop because `force_termination`
raises `TerminateTaskGroup`; but a pump that exits normally — the reader
after forwarding a receive/decode error value (`break`), or the writer after
outbound-stream exhaustion — does not by itself force the sibling's
termination: the sibling stops only at bridge scope exit. -/
theorem pump_termination_amended :
    (∀ (decode : String → Except String Msg) (mark : String)
        (events : List RecvEvent),
      (slim_reader decode mark events).2 = .terminate →
      taskGroupCancelsSiblings
        (readerExitRaised (slim_reader decode mark events).2) = true)
    ∧ (∀ (encode : Msg → String) (msgs : List (Msg × SendOutcome))
         (closed : Bool) (t : String),
      (slim_writer encode msgs closed).2 = .raised t →
      taskGroupCancelsSiblings
        (writerExitRaised (slim_writer encode msgs closed).2) = true)
    ∧ taskGroupCancelsSiblings forceTerminationRaised = true
    ∧ (∀ (decode : String → Except String Msg) (mark : String)
         (events : List RecvEvent),
      (slim_reader decode mark events).2 = .errBreak →
      taskGroupCancelsSiblings
        (readerExitRaised (slim_reader decode mark events).2) = false)
    ∧ (∀ (encode : Msg → String) (msgs : List (Msg × SendOutcome))
         (closed : Bool),
      (slim_writer encode msgs closed).2 = .exhausted →
      taskGroupCancelsSiblings
        (writerExitRaised (slim_writer encode msgs closed).2) = false) := by
  refine ⟨?_, ?_, rfl, ?_, ?_⟩
  · intro decode mark events h
    rw [h]
    rfl
  · intro encode msgs closed t h
    rw [h]
    rfl
  · intro decode mark events h
    rw [h]
    rfl
  · intro encode msgs closed h
    rw [h]
    rfl

/-- Witness for `pump_termination_amended` at concrete exits: a clean
session-closed receive cancels the sibling, and a failing publish cancels the
sibling. -/
theorem pump_termination_amended_witness :
    taskGroupCancelsSiblings
      (readerExitRaised
        (slim_reader decodeSample client_close_mark
          [.exn "session channel closed"]).2) = true
    ∧ taskGroupCancelsSiblings
        (writerExitRaised
          (slim_writer encodeSample [(⟨"x"⟩, .pubRaise "boom")] true).2)
      = true :=
  ⟨pump_termination_amended.1 decodeSample client_close_mark
      [.exn "session channel closed"] (by decide),
   pump_termination_amended.2.1 encodeSample [(⟨"x"⟩, .pubRaise "boom")] true
      "boom" (by decide)⟩

/-! ## C5 -/

theorem slim_reader_loop_clean_close (decode : String → Except String Msg)
    (mark : String) (pre : List String) (t : String) (rest : List RecvEvent)
    (hpre : ∀ p ∈ pre, ∃ m, decode p = Except.ok m)
    (ht : strContains t mark = true) :
    ∃ ms : List Msg,
      slim_reader_loop decode mark (pre.map RecvEvent.msg ++ .exn t :: rest)
        = (ms.map StreamItem.msg, .terminate) := by
  induction pre with
  | nil => exact ⟨[], by simp [slim_reader_loop, ht]⟩
  | cons p ps ih =>
    obtain ⟨m, hm⟩ := hpre p (List.mem_cons_self p ps)
    obtain ⟨ms, hms⟩ := ih fun q hq => hpre q (List.mem_cons_of_mem p hq)
    exact ⟨m :: ms, by simp [slim_reader_loop, hm, hms]⟩

/-- C5: when, after any run of well-formed messages, the receive raises an
exception classified as session-closed, the pump raises `TerminateTaskGroup`:
it exits cleanly without ever forwarding an error value into the inbound
stream, the stream's producer side is closed (so the consumer observes only
end-of-stream), and since the exit is a raise the task group cancels the
sibling pump — the clean termination propagates as a shutdown request. -/
theorem clean_close_terminates (decode : String → Except String Msg)
    (mark : String) (pre : List String) (t : String) (rest : List RecvEvent)
    (hpre : ∀ p ∈ pre, ∃ m, decode p = Except.ok m)
    (ht : strContains t mark = true) :
    (slim_reader decode mark (pre.map RecvEvent.msg ++ .exn t :: rest)).2
      = .terminate
    ∧ (∀ t', RAction.send (.err t')
        ∉ (slim_reader decode mark (pre.map RecvEvent.msg ++ .exn t :: rest)).1)
    ∧ (slim_reader decode mark (pre.map RecvEvent.msg ++ .exn t :: rest)).1.getLast?
        = some .close
    ∧ taskGroupCancelsSiblings
        (readerExitRaised
          (slim_reader decode mark (pre.map RecvEvent.msg ++ .exn t :: rest)).2)
      = true := by
  obtain ⟨ms, hms⟩ := slim_reader_loop_clean_close decode mark pre t rest hpre ht
  have hrun : slim_reader decode mark (pre.map RecvEvent.msg ++ .exn t :: rest)
      = ((ms.map StreamItem.msg).map RAction.send ++ [.close], .terminate) := by
    rw [slim_reader, hms]
    rfl
  refine ⟨?_, ?_, ?_, ?_⟩
  · rw [hrun]
  · intro t'
    rw [hrun]
    simp
  · rw [hrun]
    simp only []
    exact lastOfAppendSingle _ _
  · rw [hrun]
    rfl

/-- Witness for `clean_close_terminates`: one well-formed message, then a
clean close. -/
theorem clean_close_terminates_witness :
    (slim_reader decodeSample client_close_mark
        [.msg "hello", .exn "session channel closed"]).2 = .terminate
    ∧ (∀ t', RAction.send (.err t')
        ∉ (slim_reader decodeSample client_close_mark
            [.msg "hello", .exn "session channel closed"]).1)
    ∧ (slim_reader decodeSample client_close_mark
        [.msg "hello", .exn "session channel closed"]).1.getLast? = some .close
    ∧ taskGroupCancelsSiblings
        (readerExitRaised
          (slim_reader decodeSample client_close_mark
            [.msg "hello", .exn "session channel closed"]).2) = true :=
  clean_close_terminates decodeSample client_close_mark ["hello"]
    "session channel closed" []
    (fun p hp => by
      rw [List.mem_singleton] at hp
      subst hp
      exact ⟨⟨"hello"⟩, rfl⟩)
    (by decide)

/-! ## C6 -/

theorem accept_loop_state (events : List AcceptEvent)
    (hnc : AcceptEvent.cancelled ∉ events) :
    run_mcp_server_loop events =
      ⟨(events.filter fun e => match e with
          | .accepted _ => true | _ => false).length,
       events.filterMap fun e => match e with
          | .acceptError t => some t | _ => none,
       events.filterMap fun e => match e with
          | .accepted (.raised t) => some t | _ => none,
       true⟩ := by
  induction events with
  | nil => rfl
  | cons e rest ih =>
    have hrest := ih fun hm => hnc (List.mem_cons_of_mem _ hm)
    cases e with
    | accepted h =>
      cases h <;>
        simp [run_mcp_server_loop, handle_session, hrest, List.filterMap_cons,
          List.filter_cons]
    | acceptError t =>
      simp [run_mcp_server_loop, hrest, List.filterMap_cons, List.filter_cons]
    | cancelled => exact absurd (List.mem_cons_self _ _) hnc

/-- C6: over any finite run of the accept loop that is not externally
cancelled, every accept failure is logged and the loop is still listening
afterwards, one handler task is spawned per accepted session, every exception
raised inside a spawned `handle_session` task is caught and logged at the
task boundary, and no handler outcome ever lets an exception escape the task
(so no session's fault can reach the accept loop or another session's
task). -/
theorem accept_loop_isolation (events : List AcceptEvent)
    (hnc : AcceptEvent.cancelled ∉ events) :
    (run_mcp_server_loop events).listening = true
    ∧ (run_mcp_server_loop events).spawned
        = (events.filter fun e => match e with
            | .accepted _ => true | _ => false).length
    ∧ (run_mcp_server_loop events).acceptErrorsLogged
        = (events.filterMap fun e => match e with
            | .acceptError t => some t | _ => none)
    ∧ (run_mcp_server_loop events).handlerErrorsLogged
        = (events.filterMap fun e => match e with
            | .accepted (.raised t) => some t | _ => none)
    ∧ ∀ h : HandlerOutcome, (handle_session h).2 = false := by
  rw [accept_loop_state events hnc]
  exact ⟨rfl, rfl, rfl, rfl, fun h => by cases h <;> rfl⟩

/-- Witness for `accept_loop_isolation`: a failed accept, a handler that
raises, and a handler that completes; the loop is still listening and both
errors were logged at their respective boundaries. -/
theorem accept_loop_isolation_witness :
    (run_mcp_server_loop
        [.acceptError "transport error", .accepted (.raised "boom"),
         .accepted .completed]).listening = true
    ∧ (run_mcp_server_loop
        [.acceptError "transport error", .accepted (.raised "boom"),
         .accepted .completed]).spawned = 2
    ∧ (run_mcp_server_loop
        [.acceptError "transport error", .accepted (.raised "boom"),
         .accepted .completed]).acceptErrorsLogged = ["transport error"]
    ∧ (run_mcp_server_loop
        [.acceptError "transport error", .accepted (.raised "boom"),
         .accepted .completed]).handlerErrorsLogged = ["boom"] := by
  have h := accept_loop_isolation
    [.acceptError "transport error", .accepted (.raised "boom"),
     .accepted .completed] (by decide)
  exact ⟨h.1, h.2.1, h.2.2.1, h.2.2.2.1⟩

/-! ## C7 -/

/-- C7: `create_slim_session` yields the session only after both
`create_session_async` and the awaited establishment completion have run (in
that order), and once yielded, scope exit — whether the body returned or
raised — performs `delete_session_async` and awaits its completion, so the
trace always ends with the deletion steps and no session leaks. -/
theorem session_lifecycle :
    (∀ body, (create_slim_session_run .ok body).1
      = [.createSession, .awaitCreateCompletion, .yieldSession, .deleteSession,
         .awaitDeleteCompletion])
    ∧ (∀ est body,
        SessionAction.yieldSession ∈ (create_slim_session_run est body).1 →
        est = .ok
        ∧ (create_slim_session_run est body).1.take 2
            = [.createSession, .awaitCreateCompletion]
        ∧ SessionAction.deleteSession ∈ (create_slim_session_run est body).1
        ∧ SessionAction.awaitDeleteCompletion
            ∈ (create_slim_session_run est body).1) := by
  constructor
  · intro body
    cases body <;> rfl
  · intro est body h
    cases est with
    | ok =>
      cases body with
      | ret => exact ⟨rfl, rfl, by decide, by decide⟩
      | raised t =>
        exact ⟨rfl, rfl, by simp [create_slim_session_run],
          by simp [create_slim_session_run]⟩
    | createRaised t => simp [create_slim_session_run] at h
    | establishRaised t => simp [create_slim_session_run] at h

/-- Witness for `session_lifecycle`: the body raises, yet the deletion steps
still run after the yield. -/
theorem session_lifecycle_witness :
    (create_slim_session_run .ok (.raised "body failed")).1
      = [.createSession, .awaitCreateCompletion, .yieldSession, .deleteSession,
         .awaitDeleteCompletion]
    ∧ SessionAction.deleteSession
        ∈ (create_slim_session_run .ok (.raised "body failed")).1
    ∧ SessionAction.awaitDeleteCompletion
        ∈ (create_slim_session_run .ok (.raised "body failed")).1 :=
  ⟨session_lifecycle.1 (BodyOutcome.raised "body failed"),
   (session_lifecycle.2 EstablishOutcome.ok (BodyOutcome.raised "body failed")
      (by decide)).2.2.1,
   (session_lifecycle.2 EstablishOutcome.ok (BodyOutcome.raised "body failed")
      (by decide)).2.2.2⟩

/-! ## C8 -/

/-- C8: whenever the inbound pump exits — clean close, forwarded receive or
decode failure, or cancellation at the receive point — the `finally` has
closed the producer side of the inbound stream: the last action of the pump's
trace is the close of `read_stream_writer`. -/
theorem reader_closes_stream (decode : String → Except String Msg)
    (mark : String) (events : List RecvEvent)
    (hexit : (slim_reader decode mark events).2 ≠ .pending) :
    (slim_reader decode mark events).1.getLast? = some .close := by
  have h : (slim_reader_loop decode mark events).2 ≠ ReaderExit.pending := hexit
  show ((slim_reader_loop decode mark events).1.map RAction.send
      ++ (if (slim_reader_loop decode mark events).2 = ReaderExit.pending
          then ([] : List RAction) else [RAction.close])).getLast?
      = some RAction.close
  rw [if_neg h]
  exact lastOfAppendSingle _ _

/-- Witness for `reader_closes_stream`: a forwarded transport fault and a
cancellation both leave the stream closed as the last action. -/
theorem reader_closes_stream_witness :
    (slim_reader decodeSample client_close_mark
        [.exn "transport fault"]).1.getLast? = some .close
    ∧ (slim_reader decodeSample server_close_mark [.cancel]).1.getLast?
        = some .close :=
  ⟨reader_closes_stream decodeSample client_close_mark [.exn "transport fault"]
      (by decide),
   reader_closes_stream decodeSample server_close_mark [.cancel] (by decide)⟩

end SlimMcp
